import Mathlib

/-!
# Shallow embedding of the `api_sales` sale lifecycle engine

This file embeds the core of the `api_sales` repository: the `Sale` data
model (`internal/sales/domain.go`), the in-memory `LocalStorage`
(`internal/sales/storage`), and the `Service` operations `CreateSale`,
`SearchSale` and `UpdateSaleStatus` of the service version wired by
`api/router.go` (the three-argument `NewService` with the Resty-based
`UserClient`; its `SearchSale` validates the user only when `userID` is
non-empty).

Modelling conventions:
* `time.Time` is an abstract instant (`Nat`); each operation receives the
  value `time.Now()` returns during the call as an explicit argument, and
  the two adjacent `time.Now()` calls inside `CreateSale` are a single
  instant.
* `float64` amounts are embedded as exact rationals `ℚ`.
* `uuid.NewString()` and `rand.Intn(3)` are explicit arguments
  (`newId : String`, `ridx : Fin 3`).
* The external user API is a function `String → UserApiResponse` giving,
  per user id, the observed outcome of the HTTP call.
* The Go map `map[string]*Sale` is an unordered association list
  `List (String × Sale)`; map assignment removes any previous binding of
  the key and adds the new one.  Pointer write-through in
  `UpdateSaleStatus` (the record obtained from `Read` is mutated in place
  before `Set`) is modelled by `writeThrough`.
* Every operation returns its result together with the storage as left by
  the call, so frame properties are statable.
-/

namespace ApiSales

/-- `time.Time`, abstracted to a discrete instant. -/
abbrev Instant := Nat

/-- `Sale` from `internal/sales/domain.go`. -/
structure Sale where
  id        : String
  userId    : String
  amount    : ℚ
  status    : String
  createdAt : Instant
  updatedAt : Instant
  version   : Int
deriving Repr, DecidableEq

/-- Minimal user representation returned by the users API (`User` in the
service source). -/
structure User where
  id   : String
  name : String
deriving Repr, DecidableEq

/-- Outcome of the HTTP call `GET {baseURL}/{userID}` as observed by
`UserClient.GetUserByID`: a 200 with a user, a 404, a transport error, or
any other status code. -/
inductive UserApiResponse where
  | ok (user : User)
  | notFound
  | transportError
  | otherStatus (code : Nat)
deriving Repr, DecidableEq

/-- Errors produced by `UserClient.GetUserByID`. -/
inductive UserErr where
  /-- "usuario no encontrado: %s" (HTTP 404). -/
  | userNotFound (userId : String)
  /-- "error al hacer la petición al servicio de usuarios: %w". -/
  | requestError
  /-- "el servicio de usuarios devolvió un estado inesperado (%d)". -/
  | unexpectedStatus (code : Nat)
deriving Repr, DecidableEq

/-- `UserClient.GetUserByID`: branch on the response status code. -/
def GetUserByID (api : String → UserApiResponse) (userId : String) :
    Except UserErr User :=
  match api userId with
  | .ok u => .ok u
  | .notFound => .error (.userNotFound userId)
  | .transportError => .error .requestError
  | .otherStatus c => .error (.unexpectedStatus c)

/-- Storage-layer errors (`ErrEmptyID`, `ErrNotFound`). -/
inductive StorageErr where
  | emptyID
  | notFound
deriving Repr, DecidableEq

/-- `LocalStorage`: the in-memory `map[string]*Sale`, as an unordered
association list. -/
abbrev LocalStorage := List (String × Sale)

namespace LocalStorage

/-- Go map lookup `l.m[id]`. -/
def readKey : LocalStorage → String → Option Sale
  | [], _ => none
  | p :: rest, id => if p.1 = id then some p.2 else readKey rest id

/-- Go map assignment `l.m[k] = v`: any previous binding of `k` is gone,
the new one is present.  The list order is irrelevant (the Go map is
unordered). -/
def setKey (σ : LocalStorage) (k : String) (v : Sale) : LocalStorage :=
  (k, v) :: σ.filter (fun p => p.1 ≠ k)

/-- `LocalStorage.Set`: rejects an empty id with `ErrEmptyID`, otherwise
stores the sale under `sale.ID`. -/
def set (σ : LocalStorage) (sale : Sale) : Except StorageErr LocalStorage :=
  if sale.id = "" then .error .emptyID
  else .ok (σ.setKey sale.id sale)

/-- `LocalStorage.Read`: returns the stored sale or `ErrNotFound`. -/
def read (σ : LocalStorage) (id : String) : Except StorageErr Sale :=
  match σ.readKey id with
  | some s => .ok s
  | none => .error .notFound

/-- `LocalStorage.GetAll`: every stored record, order unspecified.  The Go
implementation never returns an error. -/
def getAll (σ : LocalStorage) : List Sale :=
  σ.map Prod.snd

/-- In-place mutation of the record previously obtained from `Read`:
`Read` hands out the stored pointer, so field writes through it update the
stored record before `Set` is called. -/
def writeThrough (σ : LocalStorage) (k : String) (v : Sale) : LocalStorage :=
  σ.map (fun p => if p.1 = k then (p.1, v) else p)

end LocalStorage

/-- Typed failures of the `Service` operations (`CreateSale`,
`UpdateSaleStatus`). -/
inductive SaleError where
  /-- "amount must be greater than zero". -/
  | invalidAmount
  /-- "user not found". -/
  | userNotFound
  /-- "error validating user". -/
  | userValidationError
  /-- `ErrNotFound`. -/
  | notFound
  /-- `ErrInvalidStatus`. -/
  | invalidStatus
  /-- `ErrInvalidTransition`. -/
  | invalidTransition
  /-- "failed to save sale: %w" / the storage error surfaced as-is. -/
  | persistence (e : StorageErr)
deriving Repr, DecidableEq

/-- Failures of `SearchSale`. -/
inductive SearchErr where
  /-- "error validating user: %w" — wraps the `GetUserByID` error. -/
  | errValidatingUser (e : UserErr)
  /-- "invalid status value" for a bad status filter. -/
  | invalidStatus (s : String)
deriving Repr, DecidableEq

/-- `getRandomStatus`: indexes `[]string{"pending", "approved", "rejected"}`
with `rand.Intn(3)`. -/
def getRandomStatus (ridx : Fin 3) : String :=
  (["pending", "approved", "rejected"] : List String).get
    ⟨ridx.1, by simp⟩

/-- The `strings.Contains(err.Error(), "usuario no encontrado")` test in
`CreateSale`, at the level of error kinds (only the 404 branch of
`GetUserByID` produces that message). -/
def isUsuarioNoEncontrado : UserErr → Bool
  | .userNotFound _ => true
  | _ => false

/-- `Service.CreateSale`.  `api` is the users API, `newId` the fresh
`uuid.NewString()`, `ridx` the `rand.Intn(3)` draw, `now` the creation
instant. -/
def CreateSale (api : String → UserApiResponse) (newId : String)
    (ridx : Fin 3) (now : Instant) (σ : LocalStorage)
    (userId : String) (amount : ℚ) :
    Except SaleError Sale × LocalStorage :=
  if amount ≤ 0 then (.error .invalidAmount, σ)
  else
    match GetUserByID api userId with
    | .error e =>
        if isUsuarioNoEncontrado e then (.error .userNotFound, σ)
        else (.error .userValidationError, σ)
    | .ok _ =>
        let sale : Sale :=
          { id := newId, userId := userId, amount := amount,
            status := getRandomStatus ridx,
            createdAt := now, updatedAt := now, version := 1 }
        match σ.set sale with
        | .error e => (.error (.persistence e), σ)
        | .ok σ' => (.ok sale, σ')

/-- `SalesMetadata`: the aggregate computed by `SearchSale`. -/
structure SalesMetadata where
  quantity    : Int
  approved    : Int
  rejected    : Int
  pending     : Int
  totalAmount : ℚ
deriving Repr, DecidableEq

/-- The zero value `SalesMetadata{}`. -/
def SalesMetadata.empty : SalesMetadata :=
  { quantity := 0, approved := 0, rejected := 0, pending := 0,
    totalAmount := 0 }

/-- The metadata update performed for each retained sale inside the
`SearchSale` loop. -/
def updateMetadata (m : SalesMetadata) (sale : Sale) : SalesMetadata :=
  let m' := { m with quantity := m.quantity + 1,
                     totalAmount := m.totalAmount + sale.amount }
  if sale.status = "approved" then { m' with approved := m'.approved + 1 }
  else if sale.status = "rejected" then { m' with rejected := m'.rejected + 1 }
  else if sale.status = "pending" then { m' with pending := m'.pending + 1 }
  else m'

/-- The filter/aggregate loop of `SearchSale` over the slice returned by
`GetAll` (with `parsedStatus = status`, as established by the validation
switch). -/
def searchLoop (userId status : String) (acc : List Sale)
    (m : SalesMetadata) : List Sale → List Sale × SalesMetadata
  | [] => (acc, m)
  | sale :: rest =>
      if userId ≠ "" ∧ sale.userId ≠ userId then
        searchLoop userId status acc m rest
      else if status ≠ "" ∧ sale.status ≠ status then
        searchLoop userId status acc m rest
      else
        searchLoop userId status (acc ++ [sale]) (updateMetadata m sale) rest

/-- Status-filter validation and the filter/aggregate phase of
`SearchSale` (everything after the user check). -/
def searchAfterUserCheck (σ : LocalStorage) (userId status : String) :
    Except SearchErr (List Sale × SalesMetadata) :=
  if status ≠ "" ∧ status ≠ "pending" ∧ status ≠ "rejected" ∧ status ≠ "approved"
  then .error (.invalidStatus status)
  else .ok (searchLoop userId status [] SalesMetadata.empty σ.getAll)

/-- `Service.SearchSale` of the wired service version: the user check runs
only when `userId` is non-empty; a `GetUserByID` error is wrapped in
"error validating user: %w" (the `userExists == nil` branch after it is
dead, since `GetUserByID` signals 404 through its error).  The call never
writes to storage. -/
def SearchSale (api : String → UserApiResponse) (σ : LocalStorage)
    (userId status : String) :
    Except SearchErr (List Sale × SalesMetadata) × LocalStorage :=
  if userId ≠ "" then
    match GetUserByID api userId with
    | .error e => (.error (.errValidatingUser e), σ)
    | .ok _ => (searchAfterUserCheck σ userId status, σ)
  else (searchAfterUserCheck σ userId status, σ)

/-- `Service.UpdateSaleStatus`: read, validate the target status, enforce
the `pending → {approved, rejected}` transition, then mutate and persist.
`Read` returns the stored record itself, so the field writes go through to
storage (`writeThrough`) before `Set` runs. -/
def UpdateSaleStatus (now : Instant) (σ : LocalStorage)
    (saleId newStatus : String) :
    Except SaleError Sale × LocalStorage :=
  match σ.readKey saleId with
  | none => (.error .notFound, σ)
  | some sale =>
      if newStatus ≠ "approved" ∧ newStatus ≠ "rejected" then
        (.error .invalidStatus, σ)
      else if sale.status ≠ "pending" then
        (.error .invalidTransition, σ)
      else
        let sale' : Sale :=
          { sale with status := newStatus, updatedAt := now,
                      version := sale.version + 1 }
        let σm := σ.writeThrough saleId sale'
        match σm.set sale' with
        | .error e => (.error (.persistence e), σm)
        | .ok σ' => (.ok sale', σ')

/-- The record `UpdateSaleStatus` builds on the success path: only
`status`, `updatedAt` and `version` change. -/
def updatedSale (sale : Sale) (newStatus : String) (now : Instant) : Sale :=
  { sale with status := newStatus, updatedAt := now,
              version := sale.version + 1 }

/-- The retention predicate of `SearchSale` step 3: keep a sale iff
(userId is empty or matches) and (status is empty or matches). -/
def retains (userId status : String) (sale : Sale) : Bool :=
  decide ((userId = "" ∨ sale.userId = userId) ∧
          (status = "" ∨ sale.status = status))

/-- Whether a `SearchSale` outcome is a user-validation failure
("error validating user: %w", wrapping either the 404 or a transport
failure of `GetUserByID`). -/
def isUserValidationFailure :
    Except SearchErr (List Sale × SalesMetadata) → Bool
  | .error (.errValidatingUser _) => true
  | _ => false

/-- Whether the users API reported anything other than success (a 404,
a transport error, or an unexpected status). -/
def apiFailed : UserApiResponse → Bool
  | .ok _ => false
  | _ => true

/-!
## System state and step relation

For the monotone-version invariant we track, next to the storage, a ghost
count of accepted status transitions per sale id.  A step is any single
service call; failed calls leave the storage exactly as the call returns
it. -/

/-- Storage plus the ghost count of accepted transitions per sale id. -/
structure SysState where
  storage  : LocalStorage
  accepted : String → Nat

/-- The initial system state: empty storage, no accepted transitions. -/
def initState : SysState := ⟨[], fun _ => 0⟩

/-- One service call against the shared storage.  `createOk`/`updateOk`
are successful calls; the `Err` variants and `search` leave the ghost
counts unchanged and keep whatever storage the call returns. -/
inductive Step : SysState → SysState → Prop where
  | createOk (api : String → UserApiResponse) (newId : String) (ridx : Fin 3)
      (now : Instant) (userId : String) (amount : ℚ) (σ : SysState)
      (sale : Sale) (st : LocalStorage)
      (h : CreateSale api newId ridx now σ.storage userId amount =
            (.ok sale, st)) :
      Step σ ⟨st, Function.update σ.accepted sale.id 0⟩
  | createErr (api : String → UserApiResponse) (newId : String) (ridx : Fin 3)
      (now : Instant) (userId : String) (amount : ℚ) (σ : SysState)
      (e : SaleError)
      (h : (CreateSale api newId ridx now σ.storage userId amount).1 =
            .error e) :
      Step σ ⟨(CreateSale api newId ridx now σ.storage userId amount).2,
              σ.accepted⟩
  | updateOk (now : Instant) (saleId newStatus : String) (σ : SysState)
      (sale : Sale) (st : LocalStorage)
      (h : UpdateSaleStatus now σ.storage saleId newStatus = (.ok sale, st)) :
      Step σ ⟨st, Function.update σ.accepted saleId (σ.accepted saleId + 1)⟩
  | updateErr (now : Instant) (saleId newStatus : String) (σ : SysState)
      (e : SaleError)
      (h : (UpdateSaleStatus now σ.storage saleId newStatus).1 = .error e) :
      Step σ ⟨(UpdateSaleStatus now σ.storage saleId newStatus).2, σ.accepted⟩
  | search (api : String → UserApiResponse) (userId status : String)
      (σ : SysState) :
      Step σ ⟨(SearchSale api σ.storage userId status).2, σ.accepted⟩

/-- States reachable from the initial state by service calls. -/
def Reachable : SysState → Prop :=
  Relation.ReflTransGen Step initState

/-- The reachable-state invariant: every stored entry is keyed by its own
non-empty id, carries a valid status, and its version is one more than
its accepted-transition count. -/
def Inv (σ : SysState) : Prop :=
  ∀ p ∈ σ.storage, p.1 = p.2.id ∧ p.2.id ≠ "" ∧
    (p.2.status = "pending" ∨ p.2.status = "approved" ∨
      p.2.status = "rejected") ∧
    p.2.version = 1 + (σ.accepted p.1 : ℤ)

/-! Sample values used by the witness theorems. -/

/-- A pending sale used as concrete test data. -/
def sampleSale : Sale :=
  { id := "s1", userId := "u1", amount := 10, status := "pending",
    createdAt := 0, updatedAt := 0, version := 1 }

/-- A users API on which every lookup succeeds. -/
def apiAllOk : String → UserApiResponse :=
  fun _ => .ok { id := "u1", name := "n" }

/-- A users API on which every lookup is a 404. -/
def apiAllNotFound : String → UserApiResponse :=
  fun _ => .notFound

/-- The sale `CreateSale apiAllOk "s1" 0 3 [] "u1" 10` creates. -/
def saleW : Sale :=
  { id := "s1", userId := "u1", amount := 10, status := "pending",
    createdAt := 3, updatedAt := 3, version := 1 }

/-- The system state after that single successful `CreateSale`. -/
def stateW : SysState :=
  ⟨[("s1", saleW)], Function.update initState.accepted saleW.id 0⟩

/-- `sampleSale` after `UpdateSaleStatus(_, "approved")` at instant 5. -/
def sampleSaleApproved : Sale :=
  { id := "s1", userId := "u1", amount := 10, status := "approved",
    createdAt := 0, updatedAt := 5, version := 2 }

/-!
## Storage lemmas
-/

namespace LocalStorage

theorem readKey_filter_ne (σ : LocalStorage) (k k' : String) (h : k' ≠ k) :
    readKey (List.filter (fun p => decide (p.1 ≠ k)) σ) k' = readKey σ k' := by
  induction σ with
  | nil => rfl
  | cons p rest ih =>
      rw [List.filter_cons]
      by_cases hp : p.1 = k
      · rw [if_neg (by simp [hp])]
        have h2 : ¬(p.1 = k') := by
          rw [hp]; exact fun he => h he.symm
        rw [show readKey (p :: rest) k' = readKey rest k' by
          simp only [readKey, if_neg h2]]
        exact ih
      · rw [if_pos (by simp [hp])]
        simp only [readKey]
        by_cases hk' : p.1 = k'
        · rw [if_pos hk', if_pos hk']
        · rw [if_neg hk', if_neg hk']
          exact ih

theorem readKey_setKey_self (σ : LocalStorage) (k : String) (v : Sale) :
    (σ.setKey k v).readKey k = some v := by
  simp [setKey, readKey]

theorem readKey_setKey_ne (σ : LocalStorage) (k : String) (v : Sale)
    (k' : String) (h : k' ≠ k) :
    (σ.setKey k v).readKey k' = σ.readKey k' := by
  have hne : ¬(k = k') := fun he => h he.symm
  simp only [setKey, readKey, if_neg hne]
  exact readKey_filter_ne σ k k' h

theorem readKey_writeThrough_ne (σ : LocalStorage) (k : String) (v : Sale)
    (k' : String) (h : k' ≠ k) :
    (σ.writeThrough k v).readKey k' = σ.readKey k' := by
  induction σ with
  | nil => rfl
  | cons p rest ih =>
      simp only [writeThrough, List.map_cons] at ih ⊢
      have hfst : (if p.1 = k then (p.1, v) else p).1 = p.1 := by
        by_cases hp : p.1 = k <;> simp [hp]
      simp only [readKey, hfst]
      by_cases hk' : p.1 = k'
      · rw [if_pos hk', if_pos hk']
        have hp : ¬(p.1 = k) := by
          rw [hk']; exact h
        rw [if_neg hp]
      · rw [if_neg hk', if_neg hk']
        exact ih

theorem readKey_mem {σ : LocalStorage} {k : String} {v : Sale}
    (h : σ.readKey k = some v) : (k, v) ∈ σ := by
  induction σ with
  | nil => simp [readKey] at h
  | cons p rest ih =>
      simp only [readKey] at h
      by_cases hp : p.1 = k
      · rw [if_pos hp] at h
        have hv : p.2 = v := by injection h
        have hpq : (k, v) = p := by
          obtain ⟨a, b⟩ := p
          simp only at hp hv
          rw [hp, hv]
        rw [hpq]
        exact List.mem_cons_self _ _
      · rw [if_neg hp] at h
        exact List.mem_cons_of_mem _ (ih h)

theorem readKey_eq_none_iff (σ : LocalStorage) (k : String) :
    σ.readKey k = none ↔ ∀ p ∈ σ, p.1 ≠ k := by
  induction σ with
  | nil => simp [readKey]
  | cons p rest ih =>
      by_cases hp : p.1 = k
      · simp [readKey, hp]
      · simp [readKey, hp, ih]

theorem mem_setKey {σ : LocalStorage} {k : String} {v : Sale}
    {p : String × Sale} (h : p ∈ σ.setKey k v) :
    p = (k, v) ∨ (p ∈ σ ∧ p.1 ≠ k) := by
  rcases List.mem_cons.mp h with h1 | h1
  · exact Or.inl h1
  · right
    have := List.mem_filter.mp h1
    exact ⟨this.1, by simpa using this.2⟩

theorem mem_writeThrough {σ : LocalStorage} {k : String} {v : Sale}
    {p : String × Sale} (h : p ∈ σ.writeThrough k v) :
    (p.1 = k ∧ p.2 = v) ∨ (p ∈ σ ∧ p.1 ≠ k) := by
  rcases List.mem_map.mp h with ⟨q, hq, hfq⟩
  by_cases hk : q.1 = k
  · left
    rw [if_pos hk] at hfq
    cases hfq
    exact ⟨hk, rfl⟩
  · right
    rw [if_neg hk] at hfq
    cases hfq
    exact ⟨hq, hk⟩

end LocalStorage

/-!
## Search loop lemmas
-/

theorem retains_false_user {userId status : String} {sale : Sale}
    (h : userId ≠ "" ∧ sale.userId ≠ userId) :
    retains userId status sale = false := by
  simp only [retains, decide_eq_false_iff_not]
  intro hr
  rcases hr.1 with h1 | h1
  · exact h.1 h1
  · exact h.2 h1

theorem retains_false_status {userId status : String} {sale : Sale}
    (h : status ≠ "" ∧ sale.status ≠ status) :
    retains userId status sale = false := by
  simp only [retains, decide_eq_false_iff_not]
  intro hr
  rcases hr.2 with h1 | h1
  · exact h.1 h1
  · exact h.2 h1

theorem retains_true {userId status : String} {sale : Sale}
    (h1 : ¬(userId ≠ "" ∧ sale.userId ≠ userId))
    (h2 : ¬(status ≠ "" ∧ sale.status ≠ status)) :
    retains userId status sale = true := by
  simp only [retains, decide_eq_true_eq]
  constructor
  · by_cases hu : userId = ""
    · exact Or.inl hu
    · exact Or.inr (by_contra fun hne => h1 ⟨hu, hne⟩)
  · by_cases hs : status = ""
    · exact Or.inl hs
    · exact Or.inr (by_contra fun hne => h2 ⟨hs, hne⟩)

/-- The `SearchSale` loop appends exactly the retained sales and folds the
metadata update over them. -/
theorem searchLoop_eq (userId status : String) (l : List Sale) :
    ∀ acc m, searchLoop userId status acc m l =
      (acc ++ l.filter (retains userId status),
       (l.filter (retains userId status)).foldl updateMetadata m) := by
  induction l with
  | nil => intro acc m; simp [searchLoop]
  | cons sale rest ih =>
      intro acc m
      rw [List.filter_cons]
      by_cases h1 : userId ≠ "" ∧ sale.userId ≠ userId
      · rw [searchLoop, if_pos h1, ih,
          if_neg (by simp [retains_false_user h1])]
      · rw [searchLoop, if_neg h1]
        by_cases h2 : status ≠ "" ∧ sale.status ≠ status
        · rw [if_pos h2, ih, if_neg (by simp [retains_false_status h2])]
        · rw [if_neg h2, ih, if_pos (by simp [retains_true h1 h2]),
            List.foldl_cons, List.append_assoc, List.singleton_append]

theorem updateMetadata_quantity (m : SalesMetadata) (sale : Sale) :
    (updateMetadata m sale).quantity = m.quantity + 1 := by
  simp only [updateMetadata]
  split_ifs <;> rfl

theorem updateMetadata_totalAmount (m : SalesMetadata) (sale : Sale) :
    (updateMetadata m sale).totalAmount = m.totalAmount + sale.amount := by
  simp only [updateMetadata]
  split_ifs <;> rfl

theorem updateMetadata_counters (m : SalesMetadata) (sale : Sale)
    (hv : sale.status = "pending" ∨ sale.status = "approved" ∨
          sale.status = "rejected") :
    (updateMetadata m sale).approved + (updateMetadata m sale).rejected +
      (updateMetadata m sale).pending
      = m.approved + m.rejected + m.pending + 1 := by
  rcases hv with hv | hv | hv <;> simp [updateMetadata, hv] <;> ring

theorem foldl_updateMetadata_quantity (l : List Sale) :
    ∀ m : SalesMetadata,
      (l.foldl updateMetadata m).quantity = m.quantity + l.length := by
  induction l with
  | nil => intro m; simp
  | cons sale rest ih =>
      intro m
      rw [List.foldl_cons, ih, updateMetadata_quantity, List.length_cons]
      push_cast
      ring

theorem foldl_updateMetadata_totalAmount (l : List Sale) :
    ∀ m : SalesMetadata,
      (l.foldl updateMetadata m).totalAmount
        = m.totalAmount + (l.map Sale.amount).sum := by
  induction l with
  | nil => intro m; simp
  | cons sale rest ih =>
      intro m
      rw [List.foldl_cons, ih, updateMetadata_totalAmount, List.map_cons,
        List.sum_cons]
      ring

theorem foldl_updateMetadata_counters (l : List Sale)
    (hv : ∀ s ∈ l, s.status = "pending" ∨ s.status = "approved" ∨
          s.status = "rejected") :
    ∀ m : SalesMetadata,
      (l.foldl updateMetadata m).approved + (l.foldl updateMetadata m).rejected
        + (l.foldl updateMetadata m).pending
      = m.approved + m.rejected + m.pending + l.length := by
  induction l with
  | nil => intro m; simp
  | cons sale rest ih =>
      intro m
      have hv1 := hv sale (List.mem_cons_self _ _)
      have hvr : ∀ s ∈ rest, s.status = "pending" ∨ s.status = "approved" ∨
          s.status = "rejected" := fun s hs => hv s (List.mem_cons_of_mem _ hs)
      rw [List.foldl_cons, ih hvr, updateMetadata_counters _ _ hv1,
        List.length_cons]
      push_cast
      ring

/-- `SearchSale` never modifies the storage (helper shared by the step
relation). -/
theorem SearchSale_snd (api : String → UserApiResponse) (σ : LocalStorage)
    (userId status : String) :
    (SearchSale api σ userId status).2 = σ := by
  rw [SearchSale]
  split_ifs with h
  · cases GetUserByID api userId <;> rfl
  · rfl

/-- `CreateSale` either leaves the storage untouched or succeeds. -/
theorem CreateSale_cases (api : String → UserApiResponse) (newId : String)
    (ridx : Fin 3) (now : Instant) (σ : LocalStorage)
    (userId : String) (amount : ℚ) :
    (CreateSale api newId ridx now σ userId amount).2 = σ ∨
    ∃ sale st, CreateSale api newId ridx now σ userId amount =
      (.ok sale, st) := by
  unfold CreateSale
  split_ifs with h1
  · left; rfl
  · split
    · split_ifs
      · left; rfl
      · left; rfl
    · dsimp only
      split
      · left; rfl
      · right; exact ⟨_, _, rfl⟩

/-- A failed `CreateSale` returns the storage untouched. -/
theorem CreateSale_err_snd (api : String → UserApiResponse) (newId : String)
    (ridx : Fin 3) (now : Instant) (σ : LocalStorage)
    (userId : String) (amount : ℚ) (e : SaleError)
    (h : (CreateSale api newId ridx now σ userId amount).1 = .error e) :
    (CreateSale api newId ridx now σ userId amount).2 = σ := by
  rcases CreateSale_cases api newId ridx now σ userId amount with
    h2 | ⟨sale, st, h2⟩
  · exact h2
  · rw [h2] at h
    simp at h

/-!
## `UpdateSaleStatus` characterization lemmas
-/

theorem UpdateSaleStatus_notFound (now : Instant) (σ : LocalStorage)
    (saleId newStatus : String) (h : σ.readKey saleId = none) :
    UpdateSaleStatus now σ saleId newStatus = (.error .notFound, σ) := by
  unfold UpdateSaleStatus
  rw [h]

theorem UpdateSaleStatus_invalidStatus (now : Instant) (σ : LocalStorage)
    (saleId newStatus : String) (sale : Sale)
    (hread : σ.readKey saleId = some sale)
    (hns : newStatus ≠ "approved" ∧ newStatus ≠ "rejected") :
    UpdateSaleStatus now σ saleId newStatus = (.error .invalidStatus, σ) := by
  unfold UpdateSaleStatus
  split
  case h_1 heq => rw [hread] at heq; cases heq
  case h_2 sale2 heq =>
    rw [hread] at heq
    injection heq with h2
    subst h2
    rw [if_pos hns]

theorem UpdateSaleStatus_invalidTransition (now : Instant) (σ : LocalStorage)
    (saleId newStatus : String) (sale : Sale)
    (hread : σ.readKey saleId = some sale)
    (hns : newStatus = "approved" ∨ newStatus = "rejected")
    (hst : sale.status ≠ "pending") :
    UpdateSaleStatus now σ saleId newStatus =
      (.error .invalidTransition, σ) := by
  unfold UpdateSaleStatus
  split
  case h_1 heq => rw [hread] at heq; cases heq
  case h_2 sale2 heq =>
    rw [hread] at heq
    injection heq with h2
    subst h2
    rw [if_neg (by rcases hns with h | h <;> simp [h]), if_pos hst]

theorem UpdateSaleStatus_ok (now : Instant) (σ : LocalStorage)
    (saleId newStatus : String) (sale : Sale)
    (hread : σ.readKey saleId = some sale)
    (hns : newStatus = "approved" ∨ newStatus = "rejected")
    (hpend : sale.status = "pending")
    (hidne : sale.id ≠ "") :
    UpdateSaleStatus now σ saleId newStatus =
      (.ok (updatedSale sale newStatus now),
       (σ.writeThrough saleId (updatedSale sale newStatus now)).setKey
         sale.id (updatedSale sale newStatus now)) := by
  unfold UpdateSaleStatus
  split
  case h_1 heq => rw [hread] at heq; cases heq
  case h_2 sale2 heq =>
    rw [hread] at heq
    injection heq with h2
    subst h2
    rw [if_neg (by rcases hns with h | h <;> simp [h]),
      if_neg (by simp [hpend])]
    dsimp only
    unfold LocalStorage.set
    split
    case h_1 e heq =>
      dsimp only at heq
      rw [if_neg hidne] at heq
      cases heq
    case h_2 σ' heq =>
      dsimp only at heq
      rw [if_neg hidne] at heq
      injection heq with h3
      subst h3
      rfl

/-- Dissects a successful `CreateSale`: the returned sale is the freshly
built record, the id is non-empty, and the storage gained exactly that
record. -/
theorem CreateSale_ok_elim {api : String → UserApiResponse} {newId : String}
    {ridx : Fin 3} {now : Instant} {σ : LocalStorage} {userId : String}
    {amount : ℚ} {sale : Sale} {st : LocalStorage}
    (h : CreateSale api newId ridx now σ userId amount = (.ok sale, st)) :
    sale = { id := newId, userId := userId, amount := amount,
             status := getRandomStatus ridx, createdAt := now,
             updatedAt := now, version := 1 } ∧
    newId ≠ "" ∧ st = σ.setKey newId sale := by
  unfold CreateSale at h
  split_ifs at h with h1
  · simp at h
  · split at h
    · split_ifs at h <;> simp at h
    · dsimp only at h
      unfold LocalStorage.set at h
      split_ifs at h with h2
      · simp at h
      · simp only [Prod.mk.injEq, Except.ok.injEq] at h
        obtain ⟨h4, h5⟩ := h
        subst h4
        exact ⟨rfl, by simpa using h2, h5.symm⟩

/-- Dissects a successful `UpdateSaleStatus`. -/
theorem UpdateSaleStatus_ok_elim {now : Instant} {σ : LocalStorage}
    {saleId newStatus : String} {sale : Sale} {st : LocalStorage}
    (h : UpdateSaleStatus now σ saleId newStatus = (.ok sale, st)) :
    ∃ sale0, σ.readKey saleId = some sale0 ∧
      (newStatus = "approved" ∨ newStatus = "rejected") ∧
      sale0.status = "pending" ∧
      sale = updatedSale sale0 newStatus now ∧
      st = (σ.writeThrough saleId sale).setKey sale.id sale := by
  unfold UpdateSaleStatus at h
  split at h
  case h_1 heq => simp at h
  case h_2 sale0 heq =>
    split_ifs at h with h1 h2
    · simp at h
    · simp at h
    · dsimp only at h
      unfold LocalStorage.set at h
      split_ifs at h with h3
      · simp at h
      · simp only [Prod.mk.injEq, Except.ok.injEq] at h
        obtain ⟨h4, h5⟩ := h
        subst h4
        refine ⟨sale0, heq, ?_, not_not.mp h2, rfl, h5.symm⟩
        by_cases ha : newStatus = "approved"
        · exact Or.inl ha
        · right
          by_contra hr
          exact h1 ⟨ha, hr⟩

/-- A failed `UpdateSaleStatus` leaves well-keyed storage untouched. -/
theorem UpdateSaleStatus_err_snd {now : Instant} {σ : LocalStorage}
    {saleId newStatus : String} {e : SaleError}
    (h : (UpdateSaleStatus now σ saleId newStatus).1 = .error e)
    (hwf : ∀ p ∈ σ, p.1 = p.2.id ∧ p.2.id ≠ "") :
    (UpdateSaleStatus now σ saleId newStatus).2 = σ := by
  cases hr : σ.readKey saleId with
  | none => rw [UpdateSaleStatus_notFound now σ saleId newStatus hr]
  | some sale0 =>
      by_cases h1 : newStatus = "approved" ∨ newStatus = "rejected"
      · by_cases h2 : sale0.status = "pending"
        · have hid : sale0.id ≠ "" := by
            have hm := hwf _ (LocalStorage.readKey_mem hr)
            exact hm.2
          have hok := UpdateSaleStatus_ok now σ saleId newStatus sale0
            hr h1 h2 hid
          rw [hok] at h
          simp at h
        · rw [UpdateSaleStatus_invalidTransition now σ saleId newStatus
            sale0 hr h1 h2]
      · rw [UpdateSaleStatus_invalidStatus now σ saleId newStatus sale0 hr
          (not_or.mp h1)]

/-- The initial status chooser only produces the three valid statuses. -/
theorem getRandomStatus_valid (ridx : Fin 3) :
    getRandomStatus ridx = "pending" ∨ getRandomStatus ridx = "approved" ∨
    getRandomStatus ridx = "rejected" := by
  rcases ridx with ⟨i, hi⟩
  interval_cases i
  · exact Or.inl rfl
  · exact Or.inr (Or.inl rfl)
  · exact Or.inr (Or.inr rfl)

/-!
## The reachable-state invariant
-/

theorem inv_init : Inv initState := by
  intro p hp
  simp [initState] at hp

theorem inv_step {σ σ' : SysState} (hInv : Inv σ) (hstep : Step σ σ') :
    Inv σ' := by
  cases hstep with
  | createOk api newId ridx now userId amount σ0 sale st h =>
      obtain ⟨hsale, hne, hst⟩ := CreateSale_ok_elim h
      intro p hp
      dsimp only at hp ⊢
      rw [hst] at hp
      rcases LocalStorage.mem_setKey hp with h1 | ⟨h1, h2⟩
      · subst h1
        have hid : sale.id = newId := by rw [hsale]
        refine ⟨hid.symm, ?_, ?_, ?_⟩
        · rw [hid]; exact hne
        · rw [hsale]
          exact getRandomStatus_valid ridx
        · dsimp only
          rw [hid, Function.update_same, hsale]
          rfl
      · obtain ⟨ha, hb, hc, hd⟩ := hInv p h1
        refine ⟨ha, hb, hc, ?_⟩
        have hnoteq : p.1 ≠ sale.id := by
          rw [hsale]
          exact h2
        rw [Function.update_noteq hnoteq]
        exact hd
  | createErr api newId ridx now userId amount σ0 e h =>
      intro p hp
      dsimp only at hp ⊢
      rw [CreateSale_err_snd _ _ _ _ _ _ _ _ h] at hp
      exact hInv p hp
  | updateOk now saleId newStatus σ0 sale st h =>
      obtain ⟨sale0, hread, hns, hpend, hsale, hst⟩ :=
        UpdateSaleStatus_ok_elim h
      have hmem := LocalStorage.readKey_mem hread
      obtain ⟨hk0, hid0, _, hv0⟩ := hInv _ hmem
      dsimp only at hk0 hid0 hv0
      intro p hp
      dsimp only at hp ⊢
      rw [hst] at hp
      have hidEq : sale.id = sale0.id := by rw [hsale]; rfl
      rcases LocalStorage.mem_setKey hp with h1 | ⟨h1, h2⟩
      · subst h1
        refine ⟨rfl, ?_, ?_, ?_⟩
        · rw [hidEq]; exact hid0
        · rcases hns with hns | hns <;>
            rw [hsale, updatedSale, hns]
          · exact Or.inr (Or.inl rfl)
          · exact Or.inr (Or.inr rfl)
        · dsimp only
          have hkey : sale.id = saleId := by rw [hidEq, ← hk0]
          rw [hkey, Function.update_same]
          have hver : sale.version = sale0.version + 1 := by
            rw [hsale]; rfl
          rw [hver, hv0]
          push_cast
          ring
      · rcases LocalStorage.mem_writeThrough h1 with ⟨ha, hb⟩ | ⟨ha, hb⟩
        · exfalso
          apply h2
          rw [ha, hk0, ← hidEq]
        · obtain ⟨hx, hy, hz, hw⟩ := hInv p ha
          refine ⟨hx, hy, hz, ?_⟩
          dsimp only
          rw [Function.update_noteq hb]
          exact hw
  | updateErr now saleId newStatus σ0 e h =>
      intro p hp
      dsimp only at hp ⊢
      rw [UpdateSaleStatus_err_snd h
        (fun q hq => ⟨(hInv q hq).1, (hInv q hq).2.1⟩)] at hp
      exact hInv p hp
  | search api userId status σ0 =>
      intro p hp
      dsimp only at hp ⊢
      rw [SearchSale_snd] at hp
      exact hInv p hp

theorem inv_reachable {σ : SysState} (h : Reachable σ) : Inv σ := by
  unfold Reachable at h
  induction h with
  | refl => exact inv_init
  | tail _ hstep ih => exact inv_step ih hstep

/-!
## `SearchSale` characterization lemmas
-/

theorem SearchSale_empty_user (api : String → UserApiResponse)
    (σ : LocalStorage) (status : String) :
    SearchSale api σ "" status = (searchAfterUserCheck σ "" status, σ) := by
  unfold SearchSale
  rw [if_neg (by simp)]

theorem SearchSale_validation_ok (api : String → UserApiResponse)
    (σ : LocalStorage) (userId status : String) (u : User)
    (hne : userId ≠ "") (hg : GetUserByID api userId = .ok u) :
    SearchSale api σ userId status =
      (searchAfterUserCheck σ userId status, σ) := by
  unfold SearchSale
  rw [if_pos hne]
  split
  case h_1 e heq => rw [hg] at heq; cases heq
  case h_2 u' heq => rfl

theorem SearchSale_validation_err (api : String → UserApiResponse)
    (σ : LocalStorage) (userId status : String) (e : UserErr)
    (hne : userId ≠ "") (hg : GetUserByID api userId = .error e) :
    SearchSale api σ userId status =
      (.error (.errValidatingUser e), σ) := by
  unfold SearchSale
  rw [if_pos hne]
  split
  case h_1 e' heq =>
    rw [hg] at heq
    injection heq with h2
    subst h2
    rfl
  case h_2 u heq => rw [hg] at heq; cases heq

theorem isUserValidationFailure_searchAfterUserCheck (σ : LocalStorage)
    (userId status : String) :
    isUserValidationFailure (searchAfterUserCheck σ userId status)
      = false := by
  unfold searchAfterUserCheck
  split_ifs <;> rfl

theorem GetUserByID_ok_api {api : String → UserApiResponse}
    {userId : String} {u : User} (h : GetUserByID api userId = .ok u) :
    api userId = .ok u := by
  unfold GetUserByID at h
  cases hapi : api userId <;> rw [hapi] at h <;> simp_all

theorem GetUserByID_error_of_apiFailed {api : String → UserApiResponse}
    {userId : String} (h : apiFailed (api userId) = true) :
    ∃ e, GetUserByID api userId = .error e := by
  cases hapi : api userId with
  | ok u => rw [hapi] at h; cases h
  | notFound =>
      exact ⟨.userNotFound userId, by simp [GetUserByID, hapi]⟩
  | transportError =>
      exact ⟨.requestError, by simp [GetUserByID, hapi]⟩
  | otherStatus c =>
      exact ⟨.unexpectedStatus c, by simp [GetUserByID, hapi]⟩

/-!
## Claim theorems
-/

/-- C1: for a stored `pending` sale, the first `UpdateSaleStatus(id, s)`
with `s ∈ {approved, rejected}` succeeds, returns the sale with
`status = s`, version incremented by exactly 1 and `updatedAt` strictly
greater than `createdAt`; every subsequent such call on the now
non-pending sale fails with `InvalidTransition` and leaves the stored
sale's version, status and `updatedAt` unchanged (the returned storage is
exactly the storage before the failing call). -/
theorem c1_transition_exactly_once (now : Instant) (σ : LocalStorage)
    (saleId s : String) (sale : Sale)
    (hread : σ.readKey saleId = some sale)
    (hpend : sale.status = "pending")
    (hs : s = "approved" ∨ s = "rejected")
    (hkey : sale.id = saleId) (hne : saleId ≠ "")
    (hclock : sale.createdAt < now) :
    ∃ sale' σ',
      UpdateSaleStatus now σ saleId s = (.ok sale', σ') ∧
      sale'.status = s ∧
      sale'.version = sale.version + 1 ∧
      sale'.createdAt < sale'.updatedAt ∧
      ∀ now' s', (s' = "approved" ∨ s' = "rejected") →
        UpdateSaleStatus now' σ' saleId s' =
          (.error .invalidTransition, σ') := by
  have hidne : sale.id ≠ "" := by rw [hkey]; exact hne
  have hok := UpdateSaleStatus_ok now σ saleId s sale hread hs hpend hidne
  refine ⟨updatedSale sale s now, _, hok, rfl, rfl, ?_, ?_⟩
  · simpa [updatedSale] using hclock
  · intro now' s' hs'
    have hread' : ((σ.writeThrough saleId (updatedSale sale s now)).setKey
        sale.id (updatedSale sale s now)).readKey saleId
          = some (updatedSale sale s now) := by
      rw [hkey]
      exact LocalStorage.readKey_setKey_self _ _ _
    refine UpdateSaleStatus_invalidTransition now' _ saleId s' _ hread'
      hs' ?_
    rcases hs with h | h <;> simp [updatedSale, h]

/-- C1 witness: a concrete pending sale is approved once, then a second
approval or rejection fails with `InvalidTransition`. -/
theorem c1_witness :
    ∃ sale' σ',
      UpdateSaleStatus 5 [("s1", sampleSale)] "s1" "approved" =
        (.ok sale', σ') ∧
      sale'.status = "approved" ∧
      sale'.version = sampleSale.version + 1 ∧
      sale'.createdAt < sale'.updatedAt ∧
      ∀ now' s', (s' = "approved" ∨ s' = "rejected") →
        UpdateSaleStatus now' σ' "s1" s' =
          (.error .invalidTransition, σ') :=
  c1_transition_exactly_once 5 [("s1", sampleSale)] "s1" "approved"
    sampleSale (by decide) (by decide) (Or.inl rfl) (by decide) (by decide)
    (by decide)

/-- C2: in every reachable storage state, every stored sale has
`version ≥ 1` and `version = 1 + (number of accepted status transitions
applied to that sale)`. -/
theorem c2_version_counts_transitions (σ : SysState) (h : Reachable σ) :
    ∀ p ∈ σ.storage, 1 ≤ p.2.version ∧
      p.2.version = 1 + (σ.accepted p.1 : ℤ) := by
  intro p hp
  obtain ⟨_, _, _, hv⟩ := inv_reachable h p hp
  refine ⟨?_, hv⟩
  rw [hv]
  omega

/-- C2 witness: the invariant evaluated in the concrete state reached by
one successful `CreateSale` from the empty store. -/
theorem c2_witness :
    1 ≤ saleW.version ∧
    saleW.version = 1 + (stateW.accepted "s1" : ℤ) :=
  c2_version_counts_transitions stateW
    (Relation.ReflTransGen.single
      (Step.createOk apiAllOk "s1" 0 3 "u1" 10 initState saleW
        stateW.storage rfl))
    ("s1", saleW) (by decide)

/-- C3: with a valid (or empty) status filter and a resolvable (or empty)
user filter, `SearchSale` retains exactly the sales matching the two
optional filters and returns metadata whose quantity is the number of
retained sales, whose totalAmount is the sum of retained amounts, whose
three status counters sum to the quantity, and which is all-zero when the
filtered set is empty. -/
theorem c3_search_filter_metadata (api : String → UserApiResponse)
    (σ : LocalStorage) (userId status : String)
    (hst : status = "" ∨ status = "pending" ∨ status = "rejected" ∨
      status = "approved")
    (hu : userId = "" ∨ ∃ u, api userId = .ok u)
    (hv : ∀ p ∈ σ, p.2.status = "pending" ∨ p.2.status = "approved" ∨
      p.2.status = "rejected") :
    ∃ sales m, (SearchSale api σ userId status).1 = .ok (sales, m) ∧
      sales = σ.getAll.filter (retains userId status) ∧
      m.quantity = sales.length ∧
      m.totalAmount = (sales.map Sale.amount).sum ∧
      m.approved + m.rejected + m.pending = m.quantity ∧
      (sales = [] → m = SalesMetadata.empty) := by
  have hfirst : (SearchSale api σ userId status).1 =
      searchAfterUserCheck σ userId status := by
    rcases hu with hu | ⟨u, hu⟩
    · rw [hu, SearchSale_empty_user]
    · by_cases hne : userId = ""
      · rw [hne, SearchSale_empty_user]
      · rw [SearchSale_validation_ok api σ userId status u hne
          (by unfold GetUserByID; rw [hu])]
  have hcheck : searchAfterUserCheck σ userId status =
      .ok (searchLoop userId status [] SalesMetadata.empty σ.getAll) := by
    unfold searchAfterUserCheck
    rw [if_neg (by rcases hst with h | h | h | h <;> simp [h])]
  have hv' : ∀ s ∈ σ.getAll.filter (retains userId status),
      s.status = "pending" ∨ s.status = "approved" ∨
      s.status = "rejected" := by
    intro s hs
    have hs2 := List.mem_of_mem_filter hs
    rcases List.mem_map.mp hs2 with ⟨p, hp, hps⟩
    rw [← hps]
    exact hv p hp
  rw [hfirst, hcheck, searchLoop_eq, List.nil_append]
  refine ⟨_, _, rfl, rfl, ?_, ?_, ?_, ?_⟩
  · rw [foldl_updateMetadata_quantity]
    simp [SalesMetadata.empty]
  · rw [foldl_updateMetadata_totalAmount]
    simp [SalesMetadata.empty]
  · rw [foldl_updateMetadata_counters _ hv', foldl_updateMetadata_quantity]
    simp [SalesMetadata.empty]
  · intro hemp
    rw [hemp]
    rfl

/-- C3 witness: the unfiltered search over a one-sale store. -/
theorem c3_witness :
    ∃ sales m,
      (SearchSale apiAllOk [("s1", sampleSale)] "" "").1 =
        .ok (sales, m) ∧
      sales = (LocalStorage.getAll [("s1", sampleSale)]).filter
        (retains "" "") ∧
      m.quantity = sales.length ∧
      m.totalAmount = (sales.map Sale.amount).sum ∧
      m.approved + m.rejected + m.pending = m.quantity ∧
      (sales = [] → m = SalesMetadata.empty) :=
  c3_search_filter_metadata apiAllOk [("s1", sampleSale)] "" ""
    (Or.inl rfl) (Or.inl rfl) (by decide)

/-- C4: for every validator-accepted user and positive amount, a
successful `CreateSale` returns a sale with version 1, a status inside
the valid set, and `createdAt = updatedAt = now`. -/
theorem c4_create_success (api : String → UserApiResponse) (newId : String)
    (ridx : Fin 3) (now : Instant) (σ : LocalStorage)
    (userId : String) (amount : ℚ)
    (hamt : 0 < amount) (hu : ∃ u, api userId = .ok u)
    (hid : newId ≠ "") :
    ∃ sale σ', CreateSale api newId ridx now σ userId amount =
        (.ok sale, σ') ∧
      sale.version = 1 ∧
      (sale.status = "pending" ∨ sale.status = "approved" ∨
        sale.status = "rejected") ∧
      sale.createdAt = now ∧ sale.updatedAt = now := by
  obtain ⟨u, hu⟩ := hu
  have hg : GetUserByID api userId = .ok u := by
    unfold GetUserByID
    rw [hu]
  refine ⟨{ id := newId, userId := userId, amount := amount,
            status := getRandomStatus ridx, createdAt := now,
            updatedAt := now, version := 1 },
    σ.setKey newId { id := newId, userId := userId, amount := amount,
                     status := getRandomStatus ridx, createdAt := now,
                     updatedAt := now, version := 1 },
    ?_, rfl, getRandomStatus_valid ridx, rfl, rfl⟩
  unfold CreateSale
  rw [if_neg (not_le.mpr hamt)]
  split
  case h_1 e heq => rw [hg] at heq; cases heq
  case h_2 u' heq =>
    dsimp only
    unfold LocalStorage.set
    split
    case h_1 e2 heq2 =>
      dsimp only at heq2
      rw [if_neg hid] at heq2
      cases heq2
    case h_2 σ2 heq2 =>
      dsimp only at heq2
      rw [if_neg hid] at heq2
      injection heq2 with h3
      subst h3
      rfl

/-- C4 witness: a concrete successful creation. -/
theorem c4_witness :
    ∃ sale σ', CreateSale apiAllOk "s2" 1 4 [] "u1" 25 =
        (.ok sale, σ') ∧
      sale.version = 1 ∧
      (sale.status = "pending" ∨ sale.status = "approved" ∨
        sale.status = "rejected") ∧
      sale.createdAt = 4 ∧ sale.updatedAt = 4 :=
  c4_create_success apiAllOk "s2" 1 4 [] "u1" 25 (by norm_num)
    ⟨{ id := "u1", name := "n" }, rfl⟩ (by decide)

/-- C5 counterexample: on a sale id that does not exist,
`UpdateSaleStatus(id, "pending")` fails with `NotFound`, not
`InvalidStatus` — the claim's "whether or not a sale with that id
exists" is false because the read runs first. -/
theorem c5_counterexample :
    UpdateSaleStatus 0 [] "missing" "pending" =
      (.error .notFound, ([] : LocalStorage)) ∧
    SaleError.notFound ≠ SaleError.invalidStatus := by
  exact ⟨rfl, by decide⟩

/-- C5 (amended): whenever a sale with `saleId` exists,
`UpdateSaleStatus(saleId, "pending")` fails with `InvalidStatus`
whatever the sale's current status, leaving the storage untouched and
never reaching the transition or persistence steps; when no such sale
exists it fails with `NotFound`. -/
theorem c5_pending_always_invalid (now : Instant) (σ : LocalStorage)
    (saleId : String) :
    (∀ sale, σ.readKey saleId = some sale →
      UpdateSaleStatus now σ saleId "pending" =
        (.error .invalidStatus, σ)) ∧
    (σ.readKey saleId = none →
      UpdateSaleStatus now σ saleId "pending" =
        (.error .notFound, σ)) := by
  constructor
  · intro sale hread
    exact UpdateSaleStatus_invalidStatus now σ saleId "pending" sale hread
      ⟨by decide, by decide⟩
  · intro hnone
    exact UpdateSaleStatus_notFound now σ saleId "pending" hnone

/-- C5 witness: a concrete pending-target update on an existing sale is
rejected with `InvalidStatus` and the storage is returned unchanged. -/
theorem c5_witness :
    UpdateSaleStatus 7 [("s1", sampleSale)] "s1" "pending" =
      (.error .invalidStatus, [("s1", sampleSale)]) :=
  (c5_pending_always_invalid 7 [("s1", sampleSale)] "s1").1 sampleSale
    (by decide)

/-- C6: `SearchSale` consults the validator only for a non-empty userId:
with an empty userId the outcome is independent of the users API; with a
non-empty userId it fails with the user-validation error exactly when the
API reports absence or failure — carrying the not-found error when the
API reports absence — and that failure is independent of the storage
(no storage read is involved). -/
theorem c6_search_validation_guard :
    (∀ api api' σ status,
      SearchSale api σ "" status = SearchSale api' σ "" status) ∧
    (∀ api σ userId status, userId ≠ "" →
      (isUserValidationFailure (SearchSale api σ userId status).1 = true ↔
        apiFailed (api userId) = true)) ∧
    (∀ api σ userId status, userId ≠ "" → api userId = .notFound →
      (SearchSale api σ userId status).1 =
        .error (.errValidatingUser (.userNotFound userId))) ∧
    (∀ api σ σ' userId status, userId ≠ "" →
      apiFailed (api userId) = true →
      (SearchSale api σ userId status).1 =
        (SearchSale api σ' userId status).1) := by
  refine ⟨?_, ?_, ?_, ?_⟩
  · intro api api' σ status
    rw [SearchSale_empty_user, SearchSale_empty_user]
  · intro api σ userId status hne
    cases hg : GetUserByID api userId with
    | error e =>
        rw [SearchSale_validation_err api σ userId status e hne hg]
        constructor
        · intro _
          cases hapi : api userId with
          | ok u =>
              rw [show GetUserByID api userId = .ok u by
                simp [GetUserByID, hapi]] at hg
              cases hg
          | notFound => rfl
          | transportError => rfl
          | otherStatus c => rfl
        · intro _
          rfl
    | ok u =>
        rw [SearchSale_validation_ok api σ userId status u hne hg]
        rw [GetUserByID_ok_api hg]
        simp [isUserValidationFailure_searchAfterUserCheck, apiFailed]
  · intro api σ userId status hne hnf
    rw [SearchSale_validation_err api σ userId status
      (.userNotFound userId) hne (by simp [GetUserByID, hnf])]
  · intro api σ σ' userId status hne hfail
    obtain ⟨e, hg⟩ := GetUserByID_error_of_apiFailed hfail
    rw [SearchSale_validation_err api σ userId status e hne hg,
      SearchSale_validation_err api σ' userId status e hne hg]

/-- C6 witness: a concrete search with a non-empty userId against an API
that reports absence fails with the user-validation error. -/
theorem c6_witness :
    (SearchSale apiAllNotFound [("s1", sampleSale)] "u9" "").1 =
      .error (.errValidatingUser (.userNotFound "u9")) :=
  (c6_search_validation_guard).2.2.1 apiAllNotFound [("s1", sampleSale)]
    "u9" "" (by decide) rfl

/-- C7: `CreateSale` rejects a non-positive amount with `InvalidAmount`
and a validator-absent user with `UserNotFound`, and in both failure
cases the returned storage is exactly the storage before the call. -/
theorem c7_create_no_write_on_reject (api : String → UserApiResponse)
    (newId : String) (ridx : Fin 3) (now : Instant) (σ : LocalStorage)
    (userId : String) (amount : ℚ) :
    (amount ≤ 0 →
      CreateSale api newId ridx now σ userId amount =
        (.error .invalidAmount, σ)) ∧
    (0 < amount → api userId = .notFound →
      CreateSale api newId ridx now σ userId amount =
        (.error .userNotFound, σ)) := by
  constructor
  · intro h
    unfold CreateSale
    rw [if_pos h]
  · intro hamt hnf
    have hg : GetUserByID api userId = .error (.userNotFound userId) := by
      simp [GetUserByID, hnf]
    unfold CreateSale
    rw [if_neg (not_le.mpr hamt)]
    split
    case h_1 e heq =>
      rw [hg] at heq
      injection heq with h2
      subst h2
      rfl
    case h_2 u heq => rw [hg] at heq; cases heq

/-- C7 witness: both rejection paths at concrete inputs, with the empty
storage returned unchanged. -/
theorem c7_witness :
    CreateSale apiAllOk "s3" 0 1 [] "u1" (-2) =
      (.error .invalidAmount, ([] : LocalStorage)) ∧
    CreateSale apiAllNotFound "s3" 0 1 [] "u7" 5 =
      (.error .userNotFound, ([] : LocalStorage)) :=
  ⟨(c7_create_no_write_on_reject apiAllOk "s3" 0 1 [] "u1" (-2)).1
      (by norm_num),
   (c7_create_no_write_on_reject apiAllNotFound "s3" 0 1 [] "u7" 5).2
      (by norm_num) rfl⟩

/-- C8: the storage contract — `Set` fails with `EmptyIdentifier` exactly
when the sale's id is empty (returning no new store); with a non-empty id
it inserts or fully replaces the record keyed by the id, so a subsequent
`Read` of that id returns the record and every other key is untouched;
`Read(id)` fails with `NotFound` exactly when no record with that key is
stored. -/
theorem c8_storage_contract (σ : LocalStorage) (sale : Sale)
    (id : String) :
    (σ.set sale = .error .emptyID ↔ sale.id = "") ∧
    (sale.id ≠ "" → ∃ σ', σ.set sale = .ok σ' ∧
      σ'.read sale.id = .ok sale ∧
      ∀ k, k ≠ sale.id → σ'.readKey k = σ.readKey k) ∧
    (σ.read id = .error .notFound ↔ ∀ p ∈ σ, p.1 ≠ id) := by
  refine ⟨⟨?_, ?_⟩, ?_, ?_⟩
  · intro h
    by_contra hne
    unfold LocalStorage.set at h
    rw [if_neg hne] at h
    cases h
  · intro h
    unfold LocalStorage.set
    rw [if_pos h]
  · intro hne
    refine ⟨σ.setKey sale.id sale, ?_, ?_, ?_⟩
    · unfold LocalStorage.set
      rw [if_neg hne]
    · unfold LocalStorage.read
      rw [LocalStorage.readKey_setKey_self]
    · intro k hk
      exact LocalStorage.readKey_setKey_ne σ sale.id sale k hk
  · unfold LocalStorage.read
    constructor
    · intro h
      cases hr : σ.readKey id with
      | none => exact (LocalStorage.readKey_eq_none_iff σ id).mp hr
      | some s => rw [hr] at h; cases h
    · intro h
      rw [(LocalStorage.readKey_eq_none_iff σ id).mpr h]

/-- C8 witness: setting a concrete sale into the empty store makes it
readable under its id. -/
theorem c8_witness :
    ∃ σ', LocalStorage.set [] sampleSale = .ok σ' ∧
      σ'.read sampleSale.id = .ok sampleSale ∧
      ∀ k, k ≠ sampleSale.id →
        σ'.readKey k = LocalStorage.readKey [] k :=
  (c8_storage_contract [] sampleSale "x").2.1 (by decide)

/-- C9: a successful `UpdateSaleStatus` preserves the target sale's id,
userId, amount and createdAt, stores the returned record under the
requested id, and leaves every other stored sale unchanged. -/
theorem c9_update_frame (now : Instant) (σ : LocalStorage)
    (saleId newStatus : String) (sale' : Sale) (σ' : LocalStorage)
    (h : UpdateSaleStatus now σ saleId newStatus = (.ok sale', σ'))
    (hwf : ∀ p ∈ σ, p.1 = p.2.id) :
    ∃ sale, σ.readKey saleId = some sale ∧
      sale'.id = sale.id ∧ sale'.userId = sale.userId ∧
      sale'.amount = sale.amount ∧ sale'.createdAt = sale.createdAt ∧
      σ'.readKey saleId = some sale' ∧
      ∀ k, k ≠ saleId → σ'.readKey k = σ.readKey k := by
  obtain ⟨sale0, hread, hns, hpend, hsale, hst⟩ := UpdateSaleStatus_ok_elim h
  have hkey : saleId = sale0.id := hwf _ (LocalStorage.readKey_mem hread)
  have hid : sale'.id = sale0.id := by rw [hsale]; rfl
  have hsid : saleId = sale'.id := by rw [hkey, ← hid]
  refine ⟨sale0, hread, hid, by rw [hsale]; rfl, by rw [hsale]; rfl,
    by rw [hsale]; rfl, ?_, ?_⟩
  · rw [hst, hsid]
    exact LocalStorage.readKey_setKey_self _ _ _
  · intro k hk
    have hk' : k ≠ sale'.id := by rw [← hsid]; exact hk
    rw [hst, LocalStorage.readKey_setKey_ne _ _ _ k hk',
      LocalStorage.readKey_writeThrough_ne _ _ _ k hk]

/-- C9 witness: a concrete successful update changes only status,
updatedAt and version. -/
theorem c9_witness :
    ∃ sale, LocalStorage.readKey [("s1", sampleSale)] "s1" = some sale ∧
      sampleSaleApproved.id = sale.id ∧
      sampleSaleApproved.userId = sale.userId ∧
      sampleSaleApproved.amount = sale.amount ∧
      sampleSaleApproved.createdAt = sale.createdAt ∧
      LocalStorage.readKey [("s1", sampleSaleApproved)] "s1" =
        some sampleSaleApproved ∧
      ∀ k, k ≠ "s1" →
        LocalStorage.readKey [("s1", sampleSaleApproved)] k =
          LocalStorage.readKey [("s1", sampleSale)] k :=
  c9_update_frame 5 [("s1", sampleSale)] "s1" "approved"
    sampleSaleApproved [("s1", sampleSaleApproved)] rfl (by decide)

/-- C10: `SearchSale` is read-only with respect to storage — for every
storage state and every pair of filter arguments, whatever the outcome,
the storage after the call equals the storage before it. -/
theorem c10_search_readonly (api : String → UserApiResponse)
    (σ : LocalStorage) (userId status : String) :
    (SearchSale api σ userId status).2 = σ :=
  SearchSale_snd api σ userId status

end ApiSales
